import Mathlib

/-!
Verification development for the loadbalancer-rs repository.

The definitions below are a shallow embedding of the core of the program:
the endpoint resolver (`src/address_resolver.rs`), the geolocation lookup
and geo server finder (`src/geo_api.rs`, `src/finder.rs`), the static
round-robin and lowest-player-count finders (`src/finder.rs`), the status
cache (`src/status.rs`) and the per-connection packet state machine
(`src/connection.rs`).

External collaborators (the std IP-literal parser, DNS lookups, the HTTP
geolocation API, the redb key-value store, the probe client, the wire
codec and the random number generator) are modelled as explicit
parameters; machine integers are modelled as `Nat` with explicit
`% 2 ^ w` where wrap-around matters; fallible operations return
`Except`/`Option`.
-/

namespace LoadBalancer

/-! ## Endpoint resolver (src/address_resolver.rs) -/

/-- Error type of the resolver, mirroring `EndpointError` in
`src/address_resolver.rs`.  `resolveErr` stands for the `Resolve(..)`
variant that wraps an underlying DNS-library error. -/
inductive EndpointError where
  | resolveErr : EndpointError
  | noAddress : List Char → EndpointError
  | invalidHostPort : EndpointError
  | noSrvAndNoFallback : EndpointError
deriving DecidableEq

/-- Mirrors `ResolvedEndpoint` in `src/address_resolver.rs`. -/
structure ResolvedEndpoint where
  ip : List Char
  port : Nat
  original_input : List Char
  resolved_host : List Char
deriving DecidableEq

/-- One SRV record as consumed by `pick_srv`: priority and weight are
`u16` fields, `port` the advertised port, `target` the target name. -/
structure SRV where
  priority : Nat
  weight : Nat
  port : Nat
  target : List Char
deriving DecidableEq

/-- Decimal value of a digit string (used by the `u16` parse model). -/
def decDigits (s : List Char) : Nat :=
  s.foldl (fun acc c => acc * 10 + (c.toNat - 48)) 0

/-- Model of Rust `str::parse::<u16>()`: optional leading sign, at least
one ASCII digit, value within `u16` range; anything else fails. -/
def parseU16 (s : List Char) : Option Nat :=
  let t := match s with
    | '+' :: rest => rest
    | _ => s
  if t = [] then none
  else if t.all Char.isDigit then
    if decDigits t ≤ 65535 then some (decDigits t) else none
  else none

/-- Number of `:` characters in the input (`input.matches(':').count()`). -/
def colonCount (s : List Char) : Nat := s.countP (fun c => c = ':')

/-- Index of the last `:` in the input (`input.rfind(':')`). -/
def rfindColon (s : List Char) : Option Nat :=
  (s.reverse.findIdx? (fun c => c = ':')).map (fun j => s.length - 1 - j)

/-- Embedding of `split_host_port` from `src/address_resolver.rs`.
`parseIp` models `IpAddr::from_str`, the external std parser: it returns
the display form of the parsed address on success. -/
def split_host_port (parseIp : List Char → Option (List Char)) (input : List Char) :
    Except EndpointError (Option (List Char × Nat)) :=
  if input.head? = some '[' then
    match input.findIdx? (fun c => c = ']') with
    | none => .error .invalidHostPort
    | some e =>
      let host := (input.take e).drop 1
      if e + 1 < input.length then
        if input.get? (e + 1) = some ':' then
          match parseU16 (input.drop (e + 2)) with
          | none => .error .invalidHostPort
          | some port => .ok (some (host, port))
        else .error .invalidHostPort
      else .ok none
  else
    if colonCount input = 0 then .ok none
    else if 1 < colonCount input ∧ (parseIp input).isSome then .ok none
    else
      match rfindColon input with
      | some idx =>
        let host := input.take idx
        let port_str := input.drop (idx + 1)
        if host = [] ∨ port_str = [] then .error .invalidHostPort
        else
          match parseU16 port_str with
          | none => .error .invalidHostPort
          | some port => .ok (some (host, port))
      | none => .ok none

/-- `str::trim` on the model: strip leading/trailing whitespace. -/
def trimChars (s : List Char) : List Char :=
  ((s.dropWhile Char.isWhitespace).reverse.dropWhile Char.isWhitespace).reverse

/-- Embedding of `normalize_host_without_port`: trim whitespace and strip
one trailing root-domain dot. -/
def normalize_host_without_port (input : List Char) : List Char :=
  let h := trimChars input
  match h.reverse with
  | '.' :: rest => rest.reverse
  | _ => h

/-- Minimum of a list of naturals, `Iterator::min` style. -/
def listMinNat : List Nat → Option Nat
  | [] => none
  | x :: xs =>
    match listMinNat xs with
    | none => some x
    | some m => some (min x m)

/-- The minimum-priority candidate set built inside `pick_srv`. -/
def sameMinPrio (records : List SRV) : List SRV :=
  match listMinNat (records.map SRV.priority) with
  | none => []
  | some minp => records.filter (fun r => r.priority = minp)

/-- The `u32` total weight of the minimum-priority candidates
(the sum wraps at `2 ^ 32`, as the release-mode `u32` sum does). -/
def totalWeight (records : List SRV) : Nat :=
  (((sameMinPrio records).map SRV.weight).sum) % 4294967296

/-- The weighted walk in `pick_srv`: subtract each candidate weight from
the draw until the draw falls inside a candidate span. -/
def srvWalk : List SRV → Nat → Option SRV
  | [], _ => none
  | r :: rs, pick => if pick < r.weight then some r else srvWalk rs (pick - r.weight)

/-- Embedding of `pick_srv` from `src/address_resolver.rs`.  `shuffle`
models the external `SliceRandom::shuffle` (zero-total-weight branch) and
`draw` the external `rng.gen_range(0..total_weight)` draw. -/
def pick_srv (records : List SRV) (shuffle : List SRV → List SRV) (draw : Nat) : Option SRV :=
  if records = [] then none
  else
    let same_prio := sameMinPrio records
    if totalWeight records = 0 then (shuffle same_prio).head?
    else srvWalk same_prio draw

/-- `trim_end_matches('.')` applied to an SRV target name. -/
def trimEndDot (s : List Char) : List Char :=
  (s.reverse.dropWhile (fun c => c = '.')).reverse

/-- `trim_start_matches('_')` applied to a service or protocol name. -/
def trimStartUnderscore (s : List Char) : List Char :=
  s.dropWhile (fun c => c = '_')

/-- The SRV lookup name `_{service}._{proto}.{host}`. -/
def srvName (service proto host : List Char) : List Char :=
  '_' :: (trimStartUnderscore service ++ '.' :: '_' :: (trimStartUnderscore proto ++ '.' :: host))

/-- External collaborators of the resolver: the std IP-literal parser,
the DNS A/AAAA lookup, the DNS SRV lookup, and the randomness consumed
by `pick_srv`.  A lookup returning `Except.error` models a transport
error of the resolution library. -/
structure ResolveEnv where
  parseIp : List Char → Option (List Char)
  lookupIp : List Char → Except Unit (List (List Char))
  srvLookup : List Char → Except Unit (List SRV)
  shuffle : List SRV → List SRV
  draw : Nat

/-- Embedding of `resolve_host_port` from `src/address_resolver.rs`.
Returns the result together with a flag recording whether any DNS lookup
(`lookup_ip` or `srv_lookup`) was performed. -/
def resolve_host_port (env : ResolveEnv) (input service proto : List Char)
    (fallback_port : Nat) : Except EndpointError ResolvedEndpoint × Bool :=
  match split_host_port env.parseIp input with
  | .error e => (.error e, false)
  | .ok (some (host_part, port)) =>
    match env.parseIp host_part with
    | some ip => (.ok ⟨ip, port, input, host_part⟩, false)
    | none =>
      match env.lookupIp host_part with
      | .error _ => (.error .resolveErr, true)
      | .ok addrs =>
        match addrs.head? with
        | some ip => (.ok ⟨ip, port, input, host_part⟩, true)
        | none => (.error (.noAddress host_part), true)
  | .ok none =>
    let host := normalize_host_without_port input
    match env.parseIp host with
    | some ip => (.ok ⟨ip, fallback_port, input, host⟩, false)
    | none =>
      if host.any Char.isAlpha then
        let chosen? :=
          match env.srvLookup (srvName service proto host) with
          | .ok answers => pick_srv answers env.shuffle env.draw
          | .error _ => none
        match chosen? with
        | some chosen =>
          let target := trimEndDot chosen.target
          (.ok ⟨target, chosen.port, input, target⟩, true)
        | none =>
          match env.lookupIp host with
          | .error _ => (.error .resolveErr, true)
          | .ok addrs =>
            match addrs.head? with
            | some ip => (.ok ⟨ip, fallback_port, input, host⟩, true)
            | none => (.error (.noAddress host), true)
      else (.error .noSrvAndNoFallback, false)

/-! ## Geolocation cache and geo server finder (src/geo_api.rs, src/finder.rs) -/

/-- Mirrors `IpInfo` in `src/geo_api.rs`. -/
structure IpInfo where
  ip : String
  asn : String
  as_name : String
  as_domain : String
  country_code : String
  country : String
  continent_code : String
  continent : String
deriving DecidableEq

/-- Embedding of `GeoCache::get_geo_data`: `cached` models the redb
read (`get_cached_ip_info`), `fetch` the outbound HTTP lookup, and
`store` the redb write (`cache_ip_info`); each is an external
collaborator that may fail.  Any failure propagates with `?`. -/
def get_geo_data (cached : Except Unit (Option IpInfo)) (fetch : Except Unit IpInfo)
    (store : IpInfo → Except Unit Unit) : Except Unit IpInfo :=
  match cached with
  | .error e => .error e
  | .ok (some info) => .ok info
  | .ok none =>
    match fetch with
    | .error e => .error e
    | .ok info =>
      match store info with
      | .error e => .error e
      | .ok _ => .ok info

/-- Embedding of `GeoServerFinder::find_server` from `src/finder.rs`:
the geolocation lookup result is propagated with `?`; on success the
continent-code region is tried, then the country-code region, then the
fallback backend.  Backends are identified by their address string;
`regions` models the `HashMap::get` of the region map. -/
def geo_find_server (regions : String → Option String) (fallback : String)
    (geo : Except Unit IpInfo) : Except Unit String :=
  match geo with
  | .error e => .error e
  | .ok ip_info =>
    match regions ip_info.continent_code with
    | some server => .ok server
    | none =>
      match regions ip_info.country_code with
      | some server => .ok server
      | none => .ok fallback

/-! ## Static round-robin finder (src/finder.rs, RoundRobin arm) -/

/-- The cursor update of the `RoundRobin` arm of
`StaticServerFiner::find_server` in `src/finder.rs`: `index = last + 1`,
then wrap to `0` when `index >= len`. -/
def rrNext (n last_index : Nat) : Nat :=
  if n ≤ last_index + 1 then 0 else last_index + 1

/-- Embedding of the `RoundRobin` arm of `StaticServerFiner::find_server`
(`src/finder.rs`): advance the cursor, then return the backend at the new
cursor position together with the new cursor; `servers.get` misses only
on an empty pool. -/
def rrFindServer (servers : List String) (last_index : Nat) :
    Except String (String × Nat) :=
  let li := rrNext servers.length last_index
  match servers.get? li with
  | none => .error "Couldnt find server"
  | some s => .ok (s, li)

/-- The cursor after `k` round-robin calls starting from cursor `i`. -/
def rrState (n i : Nat) : Nat → Nat
  | 0 => i
  | k + 1 => rrNext n (rrState n i k)

/-- The pool index selected by the `(k+1)`-th round-robin call
(0-based `k`) starting from cursor `i`. -/
def rrOutIdx (n i k : Nat) : Nat := rrState n i (k + 1)

/-- The indices selected by `count` consecutive round-robin calls. -/
def rrIdxList (n i count : Nat) : List Nat :=
  (List.range count).map (fun k => rrOutIdx n i k)

/-- The backends returned by `count` consecutive round-robin calls. -/
def rrOutputs (servers : List String) (i count : Nat) : List String :=
  (rrIdxList servers.length i count).map (fun j => servers.getD j "")

/-! ## Static lowest-player-count finder (src/finder.rs, LowestPlayerCount arm) -/

/-- `u32::MAX`, the sentinel score of a failed or timed-out probe. -/
def U32MAX : Nat := 4294967295

/-- Score of one probe outcome: a successful probe reports its `u32`
player count (the `as u32` cast in `src/backend.rs` truncates at
`2 ^ 32`); a failed probe is scored `unwrap_or(u32::MAX)`. -/
def probeScore (r : Option Nat) : Nat :=
  match r with
  | some c => c % 4294967296
  | none => U32MAX

/-- Rust `Iterator::min_by_key` on (backend, score) pairs: the first
element with the minimal score, in the order of the collected list. -/
def minByKey : List (String × Nat) → Option (String × Nat)
  | [] => none
  | x :: xs =>
    match minByKey xs with
    | none => some x
    | some y => if x.2 ≤ y.2 then some x else some y

/-- The (backend, score) pairs in pool order, before the
`buffer_unordered(5)` fan-out reorders them by completion. -/
def probeResults (servers : List String) (probe : String → Option Nat) :
    List (String × Nat) :=
  servers.map (fun s => (s, probeScore (probe s)))

/-- Embedding of the `LowestPlayerCount` arm of
`StaticServerFiner::find_server` (`src/finder.rs`): `results` is the
(backend, score) list in probe-completion order — `buffer_unordered(5)`
collects completions in an order that is any permutation of the pool —
and `min_by_key` picks the first minimal element of that list. -/
def lowestFindServer (results : List (String × Nat)) : Except String String :=
  match minByKey results with
  | none => .error "No servers available"
  | some x => .ok x.1

/-! ## Status cache (src/status.rs) -/

/-- The rendered status payload, mirroring the `StatusResponse` value
built by `StatusCache::build_status_response`; the external
`serde_json::to_string` serialization of equal values is byte-identical. -/
structure StatusResponse where
  versionName : String
  protocol : Nat
  playersMax : Nat
  playersOnline : Nat
  sample : List String
  description : String
  favicon : Option String
  enforceSecureChat : Bool
deriving DecidableEq

/-- Embedding of `StatusCache::build_status_response` (`src/status.rs`). -/
def build_status_response (motd : String) (protocol : Nat) (player_count : Nat) :
    StatusResponse :=
  ⟨"Loadbalancer", protocol, 1000, player_count, [], motd, none, false⟩

/-- Mirrors `StatusCache` in `src/status.rs`: the last aggregate count,
the last refresh time (seconds), and the memo table keyed by
(motd, protocol, count). -/
structure StatusCache where
  count : Nat
  lastUpdated : Nat
  cache : List ((String × Nat × Nat) × StatusResponse)
deriving DecidableEq

/-- `HashMap::get` on the memo table (insertions prepend, so the first
match is the current binding). -/
def cacheGet (m : List ((String × Nat × Nat) × StatusResponse))
    (k : String × Nat × Nat) : Option StatusResponse :=
  (m.find? (fun e => e.1 = k)).map (fun e => e.2)

/-- Embedding of `StatusCache::get_status_response` (`src/status.rs`).
`playerCount` is the selector aggregate that `get_player_count()` would
report (the backend pool is unchanged between calls that share it) and
`now` the current time in whole seconds (`Instant::elapsed().as_secs()`).
Returns the payload, the updated cache, and whether the selector was
queried. -/
def get_status_response (c : StatusCache) (motd : String) (protocol : Nat)
    (playerCount : Nat) (now : Nat) : StatusResponse × StatusCache × Bool :=
  let refreshed :=
    if 15 < now - c.lastUpdated then
      ({ c with count := playerCount, lastUpdated := now }, true)
    else (c, false)
  let c1 := refreshed.1
  match cacheGet c1.cache (motd, protocol, c1.count) with
  | some cached => (cached, c1, refreshed.2)
  | none =>
    let r := build_status_response motd protocol c1.count
    (r, { c1 with cache := ((motd, protocol, c1.count), r) :: c1.cache }, refreshed.2)

/-! ## Connection state machine (src/connection.rs) -/

/-- The `ConnectionState` enumeration of the external protocol crate. -/
inductive CState where
  | handShake
  | status
  | login
  | transfer
  | config
  | play
deriving DecidableEq

/-- Decoded shapes a packet body can take; `malformed` stands for bytes
that none of the used decoders accepts. -/
inductive Payload where
  | handshake (protocolVersion : Int) (nextState : CState)
  | ping (payload : Int)
  | loginStart (name : String) (uuid : String)
  | empty
  | malformed
deriving DecidableEq

/-- A framed packet as delivered by the external codec. -/
structure RawPacket where
  id : Int
  payload : Payload
deriving DecidableEq

/-- Packet id of `SHandShake` in the external codec. -/
def handshakePacketId : Int := 0

/-- Packet id of `SStatusRequest` in the external codec. -/
def statusRequestPacketId : Int := 0

/-- Packet id of `SStatusPingRequest` in the external codec. -/
def statusPingRequestPacketId : Int := 1

/-- Packet id of `SLoginStart` in the external codec. -/
def loginStartPacketId : Int := 0

/-- Packet id of `SLoginAcknowledged` in the external codec. -/
def loginAcknowledgedPacketId : Int := 3

/-- `SHandShake::read`: decodes only a handshake-shaped body. -/
def readHandshake : Payload → Except String (Int × CState)
  | .handshake v s => .ok (v, s)
  | _ => .error "decode error"

/-- `SStatusPingRequest::read`: decodes only a ping-shaped body. -/
def readPing : Payload → Except String Int
  | .ping n => .ok n
  | _ => .error "decode error"

/-- `SLoginStart::read`: decodes only a login-start-shaped body. -/
def readLoginStart : Payload → Except String (String × String)
  | .loginStart name uuid => .ok (name, uuid)
  | _ => .error "decode error"

/-- Per-connection mutable state of `Connection` (`src/connection.rs`):
the protocol state and the recorded handshake protocol version
(initially `0`). -/
structure Conn where
  state : CState
  protocol_version : Int
deriving DecidableEq

/-- Packets the connection can send, mirroring `CStatusResponse`,
`CPingResponse`, `CLoginSuccess` and `CTransfer`. -/
inductive OutPacket where
  | statusResponse (resp : StatusResponse)
  | pingResponse (payload : Int)
  | loginSuccess (uuid : String) (name : String)
  | transfer (host : String) (port : Nat)
deriving DecidableEq

/-- The shared collaborators a connection interacts with: the selector
aggregate that `get_player_count()` reports, the `find_server()` outcome
of the shared selector, and the `get_host_and_port()` resolution of a
selected backend. -/
structure MachineEnv where
  playerCount : Nat
  selection : Except String String
  resolveServer : String → Except String (String × Nat)

/-- Embedding of `Connection::handle_handshake_packet`: a handshake
packet records the declared version and moves to the declared state; any
other packet id is only logged and the handler succeeds unchanged. -/
def handle_handshake_packet (c : Conn) (p : RawPacket) : Except String Conn :=
  if p.id = handshakePacketId then
    match readHandshake p.payload with
    | .error e => .error e
    | .ok (v, next) => .ok { c with state := next, protocol_version := v }
  else .ok c

/-- Embedding of `Connection::handle_status_packet`: a status request
renders `max(766, protocol_version)` into the cached status payload
(the motd is the hard-coded `"test"`); a ping request echoes its
payload; any other packet id is a fatal `Unknown packet id` error. -/
def handle_status_packet (c : Conn) (cache : StatusCache) (env : MachineEnv)
    (now : Nat) (p : RawPacket) : Except String (StatusCache × List OutPacket) :=
  if p.id = statusRequestPacketId then
    let protocol := (max 766 c.protocol_version).toNat
    let res := get_status_response cache "test" protocol env.playerCount now
    .ok (res.2.1, [.statusResponse res.1])
  else if p.id = statusPingRequestPacketId then
    match readPing p.payload with
    | .error e => .error e
    | .ok n => .ok (cache, [.pingResponse n])
  else .error "Unknown packet id"

/-- Embedding of `Connection::handle_login_packet`: login-start echoes a
login-success; login-acknowledged moves to `Config`; any other packet id
is a fatal `Unknown packet id` error. -/
def handle_login_packet (c : Conn) (p : RawPacket) :
    Except String (Conn × List OutPacket) :=
  if p.id = loginStartPacketId then
    match readLoginStart p.payload with
    | .error e => .error e
    | .ok (name, uuid) => .ok (c, [.loginSuccess uuid name])
  else if p.id = loginAcknowledgedPacketId then
    .ok ({ c with state := .config }, [])
  else .error "Unknown packet id"

/-- Embedding of `Connection::handle_config_packet`: ask the shared
selector for a backend, resolve its host and port, and send one
`CTransfer` packet naming them; a selector or resolution failure
propagates. -/
def handle_config_packet (env : MachineEnv) : Except String (List OutPacket) :=
  match env.selection with
  | .error e => .error e
  | .ok server =>
    match env.resolveServer server with
    | .error e => .error e
    | .ok (host, port) => .ok [.transfer host port]

/-- Result of handling one packet: the updated connection and cache, the
packets written to the socket before the handler returned, and whether
`handle_packet` returned `Ok` (so the processing loop continues). -/
structure StepResult where
  conn : Conn
  cache : StatusCache
  sent : List OutPacket
  ok : Bool
deriving DecidableEq

/-- Embedding of `Connection::handle_packet` (`src/connection.rs`).  In
the `Config` state the handler first runs `handle_config_packet` and
then — even on success — returns the `Disconnect` error, so `ok` is
`false` there in every case; states other than the four handled ones
fall into the wildcard arm and succeed without effect. -/
def handle_packet (env : MachineEnv) (c : Conn) (cache : StatusCache)
    (now : Nat) (p : RawPacket) : StepResult :=
  match c.state with
  | .handShake =>
    match handle_handshake_packet c p with
    | .error _ => ⟨c, cache, [], false⟩
    | .ok c2 => ⟨c2, cache, [], true⟩
  | .status =>
    match handle_status_packet c cache env now p with
    | .error _ => ⟨c, cache, [], false⟩
    | .ok (cache2, outs) => ⟨c, cache2, outs, true⟩
  | .config =>
    match handle_config_packet env with
    | .error _ => ⟨c, cache, [], false⟩
    | .ok outs => ⟨c, cache, outs, false⟩
  | .login =>
    match handle_login_packet c p with
    | .error _ => ⟨c, cache, [], false⟩
    | .ok (c2, outs) => ⟨c2, cache, outs, true⟩
  | .transfer => ⟨c, cache, [], true⟩
  | .play => ⟨c, cache, [], true⟩

/-- The per-connection processing loop of `main.rs`/`process_packets`:
read the next (time-stamped) packet — end of input models a failed
read — handle it, stop when the handler failed, otherwise continue.
Returns every packet sent and the input left unread. -/
def runConn (env : MachineEnv) (c : Conn) (cache : StatusCache) :
    List (Nat × RawPacket) → List OutPacket × List (Nat × RawPacket)
  | [] => ([], [])
  | (now, p) :: rest =>
    let r := handle_packet env c cache now p
    if r.ok then
      let cont := runConn env r.conn r.cache rest
      (r.sent ++ cont.1, cont.2)
    else (r.sent, rest)

/-- Well-formedness of the status memo table: every stored payload is
the rendered payload of its own key.  The empty cache of
`StatusCache::new` satisfies it and `get_status_response` preserves it. -/
def cacheWF (c : StatusCache) : Prop :=
  ∀ e ∈ c.cache, e.2 = build_status_response e.1.1 e.1.2.1 e.1.2.2

/-! ## Supporting lemmas -/

theorem listMinNat_eq_none {l : List Nat} : listMinNat l = none ↔ l = [] := by
  cases l with
  | nil => simp [listMinNat]
  | cons x xs =>
    simp only [listMinNat]
    cases listMinNat xs <;> simp

theorem listMinNat_mem {l : List Nat} {m : Nat} (h : listMinNat l = some m) : m ∈ l := by
  induction l generalizing m with
  | nil => simp [listMinNat] at h
  | cons x xs ih =>
    simp only [listMinNat] at h
    cases hx : listMinNat xs with
    | none =>
      rw [hx] at h
      simp only [Option.some.injEq] at h
      simp [← h]
    | some m2 =>
      rw [hx] at h
      simp only [Option.some.injEq] at h
      rcases min_cases x m2 with ⟨he, _⟩ | ⟨he, _⟩
      · have hm : m = x := by omega
        simp [hm]
      · have hm : m = m2 := by omega
        exact List.mem_cons_of_mem _ (hm ▸ ih hx)

theorem listMinNat_le {l : List Nat} {m : Nat} (h : listMinNat l = some m) :
    ∀ x ∈ l, m ≤ x := by
  induction l generalizing m with
  | nil => simp
  | cons x xs ih =>
    intro y hy
    simp only [listMinNat] at h
    cases hx : listMinNat xs with
    | none =>
      have hxs : xs = [] := listMinNat_eq_none.mp hx
      subst hxs
      rw [hx] at h
      simp only [Option.some.injEq] at h
      simp at hy
      omega
    | some m2 =>
      rw [hx] at h
      simp only [Option.some.injEq] at h
      rcases List.mem_cons.mp hy with hy2 | hy2
      · subst hy2; omega
      · have := ih hx y hy2; omega

theorem listMinNat_isSome {l : List Nat} (h : l ≠ []) : ∃ m, listMinNat l = some m := by
  cases l with
  | nil => simp at h
  | cons x xs =>
    simp only [listMinNat]
    cases listMinNat xs <;> simp

theorem srvWalk_total {sp : List SRV} {draw : Nat}
    (h : draw < (sp.map SRV.weight).sum) :
    ∃ r, srvWalk sp draw = some r ∧ r ∈ sp ∧ 0 < r.weight := by
  induction sp generalizing draw with
  | nil => simp at h
  | cons r rs ih =>
    by_cases hlt : draw < r.weight
    · exact ⟨r, by simp [srvWalk, hlt], by simp, by omega⟩
    · simp only [List.map_cons, List.sum_cons] at h
      have h2 : draw - r.weight < (rs.map SRV.weight).sum := by omega
      obtain ⟨q, hq, hmem, hw⟩ := ih h2
      exact ⟨q, by simp [srvWalk, hlt, hq], by simp [hmem], hw⟩

theorem mem_sameMinPrio {records : List SRV} {r : SRV} {minp : Nat}
    (hmin : listMinNat (records.map SRV.priority) = some minp) :
    r ∈ sameMinPrio records ↔ r ∈ records ∧ r.priority = minp := by
  simp [sameMinPrio, hmin, List.mem_filter]

theorem sameMinPrio_ne_nil {records : List SRV} {minp : Nat}
    (hmin : listMinNat (records.map SRV.priority) = some minp) :
    sameMinPrio records ≠ [] := by
  have hm := listMinNat_mem hmin
  simp only [List.mem_map] at hm
  obtain ⟨r, hr, hrp⟩ := hm
  intro hnil
  have : r ∈ sameMinPrio records := (mem_sameMinPrio hmin).2 ⟨hr, hrp⟩
  rw [hnil] at this
  simp at this

/-! ## Claim C6 : SRV record selection (pick_srv) -/

/-- Claim C6: for every non-empty SRV record set, the selected record's
priority equals the minimum priority in the set; and whenever the
minimum-priority candidates have a total weight greater than zero, for
every random draw in `[0, total-weight)` the selected record has nonzero
weight, so a zero-weight record is never selected.  `shuffle` and `draw`
model the external randomness; the hypothesis bounding the weight sum
below `2 ^ 32` reflects the `u32` accumulator of the source. -/
theorem claim_C6 (records : List SRV) (shuffle : List SRV → List SRV) (draw : Nat)
    (hne : records ≠ [])
    (hshuf : ∀ l, (shuffle l).Perm l)
    (hsum : ((sameMinPrio records).map SRV.weight).sum < 4294967296)
    (hdraw : 0 < totalWeight records → draw < totalWeight records) :
    ∃ r minp, pick_srv records shuffle draw = some r ∧ r ∈ records ∧
      listMinNat (records.map SRV.priority) = some minp ∧
      r.priority = minp ∧ (∀ q ∈ records, minp ≤ q.priority) ∧
      (0 < totalWeight records → r.weight ≠ 0) := by
  have hmap : records.map SRV.priority ≠ [] := by
    intro h; exact hne (List.map_eq_nil_iff.mp h)
  obtain ⟨minp, hmin⟩ := listMinNat_isSome hmap
  have htw : totalWeight records = ((sameMinPrio records).map SRV.weight).sum := by
    simp only [totalWeight]
    exact Nat.mod_eq_of_lt hsum
  by_cases h0 : totalWeight records = 0
  · -- zero total weight: uniform shuffle, first element
    have hsp := sameMinPrio_ne_nil hmin
    have hperm := hshuf (sameMinPrio records)
    have hshne : shuffle (sameMinPrio records) ≠ [] := by
      intro h
      exact hsp ((h ▸ hperm).symm.eq_nil)
    obtain ⟨r, hr⟩ := List.exists_mem_of_ne_nil _ hshne
    have hhead : (shuffle (sameMinPrio records)).head? = some ((shuffle (sameMinPrio records)).head hshne) := List.head?_eq_head hshne
    set r0 := (shuffle (sameMinPrio records)).head hshne with hr0
    have hr0mem : r0 ∈ sameMinPrio records := hperm.subset (List.head_mem hshne)
    have hr0p := (mem_sameMinPrio hmin).1 hr0mem
    refine ⟨r0, minp, ?_, hr0p.1, hmin, hr0p.2, ?_, ?_⟩
    · simp [pick_srv, hne, h0, hhead]
    · intro q hq
      exact listMinNat_le hmin q.priority (List.mem_map_of_mem SRV.priority hq)
    · intro hpos; omega
  · -- positive total weight: weighted walk
    have hdlt : draw < ((sameMinPrio records).map SRV.weight).sum := by
      rw [← htw]; exact hdraw (Nat.pos_of_ne_zero h0)
    obtain ⟨r, hwalk, hmem, hw⟩ := srvWalk_total hdlt
    have hrp := (mem_sameMinPrio hmin).1 hmem
    refine ⟨r, minp, ?_, hrp.1, hmin, hrp.2, ?_, fun _ => by omega⟩
    · simp [pick_srv, hne, h0, hwalk]
    · intro q hq
      exact listMinNat_le hmin q.priority (List.mem_map_of_mem SRV.priority hq)

/-- Witness for C6 at a concrete record set: two records at priority 0
with weights 10 and 0 (plus a higher-priority record), draw 3. -/
theorem claim_C6_witness :
    ∃ r minp,
      pick_srv [⟨0, 10, 100, ['a']⟩, ⟨0, 0, 200, ['b']⟩, ⟨5, 7, 300, ['c']⟩] id 3 = some r ∧
      r ∈ [⟨0, 10, 100, ['a']⟩, ⟨0, 0, 200, ['b']⟩, (⟨5, 7, 300, ['c']⟩ : SRV)] ∧
      listMinNat ([⟨0, 10, 100, ['a']⟩, ⟨0, 0, 200, ['b']⟩,
        (⟨5, 7, 300, ['c']⟩ : SRV)].map SRV.priority) = some minp ∧
      r.priority = minp ∧
      (∀ q ∈ [⟨0, 10, 100, ['a']⟩, ⟨0, 0, 200, ['b']⟩, (⟨5, 7, 300, ['c']⟩ : SRV)],
        minp ≤ q.priority) ∧
      (0 < totalWeight [⟨0, 10, 100, ['a']⟩, ⟨0, 0, 200, ['b']⟩, ⟨5, 7, 300, ['c']⟩] →
        r.weight ≠ 0) :=
  claim_C6 _ id 3 (by decide) (fun l => List.Perm.refl l) (by decide) (by decide)

/-! ## Claim C1 : geo find_server on lookup error -/

/-- Counterexample to C1: with an erroring geolocation lookup (the redb
cache read fails, as does the outbound HTTP fetch), the geo
`find_server` propagates the error instead of returning the configured
fallback backend. -/
theorem claim_C1_counterexample :
    geo_find_server (fun _ => none) "fallback"
      (get_geo_data (.error ()) (.error ()) (fun _ => .ok ())) = .error () ∧
    (Except.error () : Except Unit String) ≠ .ok "fallback" :=
  ⟨rfl, fun h => Except.noConfusion h⟩

/-- Amended C1: when the geolocation lookup succeeds, the geo
`find_server` never fails — it returns the continent-code region if
configured, else the country-code region, else the fallback backend;
when the lookup errors, `find_server` propagates that error (the
connection attempt fails) rather than returning the fallback. -/
theorem claim_C1 (regions : String → Option String) (fallback : String)
    (cached : Except Unit (Option IpInfo)) (fetch : Except Unit IpInfo)
    (store : IpInfo → Except Unit Unit) :
    (∀ info : IpInfo,
      geo_find_server regions fallback (.ok info) =
        .ok (((regions info.continent_code).or (regions info.country_code)).getD fallback)) ∧
    (∀ e, get_geo_data cached fetch store = .error e →
      geo_find_server regions fallback (get_geo_data cached fetch store) = .error e) := by
  constructor
  · intro info
    simp only [geo_find_server]
    cases hc : regions info.continent_code with
    | some s => simp [hc, Option.or]
    | none =>
      cases hk : regions info.country_code with
      | some s => simp [hc, hk, Option.or]
      | none => simp [hc, hk, Option.or]
  · intro e he
    rw [he]
    rfl

/-! ## Claim C2 : static round-robin cycling -/

theorem rrNext_eq_mod {n i : Nat} (hi : i < n) : rrNext n i = (i + 1) % n := by
  simp only [rrNext]
  by_cases h : n ≤ i + 1
  · have : i + 1 = n := by omega
    simp [h, this]
  · rw [if_neg h, Nat.mod_eq_of_lt (by omega)]

theorem rrNext_lt {n i : Nat} (h0 : 0 < n) : rrNext n i < n := by
  simp only [rrNext]
  by_cases h : n ≤ i + 1 <;> simp [h] <;> omega

theorem rrState_eq_mod {n : Nat} (i : Nat) (hi : i < n) (k : Nat) :
    rrState n i k = (i + k) % n := by
  induction k with
  | zero => simp [rrState, Nat.mod_eq_of_lt hi]
  | succ k ih =>
    have h0 : 0 < n := by omega
    have hlt : (i + k) % n < n := Nat.mod_lt _ h0
    rw [rrState, ih, rrNext_eq_mod hlt, Nat.mod_add_mod]
    ring_nf

theorem rrState_lt {n : Nat} (i : Nat) (hi : i < n) (k : Nat) : rrState n i k < n := by
  rw [rrState_eq_mod i hi k]
  exact Nat.mod_lt _ (by omega)

theorem rrIdxList_perm_range {n : Nat} (i : Nat) (hi : i < n) :
    (rrIdxList n i n).Perm (List.range n) := by
  have h0 : 0 < n := by omega
  have hform : rrIdxList n i n = (List.range n).map (fun k => (i + k + 1) % n) := by
    simp only [rrIdxList, rrOutIdx]
    apply List.map_congr_left
    intro k _
    rw [rrState_eq_mod i hi (k + 1)]
    ring_nf
  rw [hform]
  have hnodup : ((List.range n).map (fun k => (i + k + 1) % n)).Nodup := by
    refine List.Nodup.map_on ?_ (List.nodup_range n)
    intro a ha b hb hab
    simp only [List.mem_range] at ha hb
    have h1 : (i + 1 + a) % n = (i + 1 + b) % n := by
      have e1 : i + a + 1 = i + 1 + a := by ring
      have e2 : i + b + 1 = i + 1 + b := by ring
      rw [← e1, ← e2]; exact hab
    have h2 : a % n = b % n :=
      Nat.ModEq.add_left_cancel' (i + 1) h1
    rwa [Nat.mod_eq_of_lt ha, Nat.mod_eq_of_lt hb] at h2
  have hsub : ((List.range n).map (fun k => (i + k + 1) % n)) ⊆ List.range n := by
    intro x hx
    simp only [List.mem_map, List.mem_range] at hx
    obtain ⟨k, _, hk⟩ := hx
    simp only [List.mem_range]
    subst hk
    exact Nat.mod_lt _ h0
  refine List.Subperm.perm_of_length_le (List.subperm_of_subset hnodup hsub) ?_
  simp

theorem getD_range_map (l : List String) :
    (List.range l.length).map (fun j => l.getD j "") = l := by
  induction l with
  | nil => simp
  | cons a t ih =>
    rw [List.length_cons, List.range_succ_eq_map, List.map_cons, List.map_map]
    simp only [List.getD_cons_zero]
    congr 1

/-- Claim C2: for a non-empty static pool under round-robin, starting
from any valid cursor `i`, the pool indices selected by `N` consecutive
`find_server` calls are a permutation of `0..N-1` (each backend slot is
returned exactly once per cycle), the returned backends are a
permutation of the pool (each backend exactly once when the pool has no
duplicates), the cursor returns to `i` after `N` calls so every cycle
visits the same order, consecutive calls never repeat an index when
`N > 1`, each call returns the backend at the new cursor position,
`find_server` fails exactly on the empty pool, and a pool of one backend
always yields that backend. -/
theorem claim_C2 (servers : List String) (i : Nat) (hi : i < servers.length) :
    (rrIdxList servers.length i servers.length).Perm (List.range servers.length) ∧
    (∀ m < servers.length, (rrIdxList servers.length i servers.length).count m = 1) ∧
    (rrOutputs servers i servers.length).Perm servers ∧
    (servers.Nodup → ∀ s ∈ servers, (rrOutputs servers i servers.length).count s = 1) ∧
    (∀ k, ∃ h : rrOutIdx servers.length i k < servers.length,
      rrFindServer servers (rrState servers.length i k) =
        .ok (servers.get ⟨rrOutIdx servers.length i k, h⟩,
          rrOutIdx servers.length i k)) ∧
    rrState servers.length i servers.length = i ∧
    (1 < servers.length → ∀ k,
      rrOutIdx servers.length i k ≠ rrOutIdx servers.length i (k + 1)) ∧
    (∀ (l : List String) (j : Nat), (∃ e, rrFindServer l j = .error e) ↔ l = []) ∧
    (∀ (a : String) (j : Nat), rrFindServer [a] j = .ok (a, 0)) := by
  have h0 : 0 < servers.length := by omega
  have hperm := rrIdxList_perm_range i hi
  have houtp : (rrOutputs servers i servers.length).Perm servers := by
    have hm := hperm.map (fun j => servers.getD j "")
    rw [getD_range_map servers] at hm
    exact hm
  refine ⟨hperm, ?_, houtp, ?_, ?_, ?_, ?_, ?_, ?_⟩
  · intro m hm
    rw [hperm.count_eq]
    exact List.count_eq_one_of_mem (List.nodup_range servers.length) (by simp [hm])
  · intro hnd s hs
    rw [houtp.count_eq]
    exact List.count_eq_one_of_mem hnd hs
  · intro k
    have hlt : rrOutIdx servers.length i k < servers.length := by
      simp only [rrOutIdx]
      exact rrState_lt i hi (k + 1)
    refine ⟨hlt, ?_⟩
    have hob : rrOutIdx servers.length i k =
        rrNext servers.length (rrState servers.length i k) := rfl
    simp only [rrFindServer]
    rw [← hob, List.get?_eq_get hlt]
  · rw [rrState_eq_mod i hi, Nat.add_mod_right, Nat.mod_eq_of_lt hi]
  · intro h1 k
    simp only [rrOutIdx]
    rw [rrState_eq_mod i hi (k + 1), rrState_eq_mod i hi (k + 2)]
    intro hcontra
    have hb : (i + (k + 1)) % servers.length < servers.length := Nat.mod_lt _ h0
    have hstep : (i + (k + 2)) % servers.length =
        ((i + (k + 1)) % servers.length + 1) % servers.length := by
      conv_lhs => rw [show i + (k + 2) = i + (k + 1) + 1 by ring]
      rw [Nat.mod_add_mod]
    set b := (i + (k + 1)) % servers.length with hbdef
    rw [hstep] at hcontra
    by_cases hbe : b + 1 < servers.length
    · rw [Nat.mod_eq_of_lt hbe] at hcontra
      omega
    · have : b + 1 = servers.length := by omega
      rw [this, Nat.mod_self] at hcontra
      omega
  · intro l j
    constructor
    · rintro ⟨e, he⟩
      by_contra hl
      have hl0 : 0 < l.length := List.length_pos.mpr hl
      have hlt := rrNext_lt (i := j) hl0
      simp only [rrFindServer] at he
      rw [List.get?_eq_get hlt] at he
      exact Except.noConfusion he
    · intro hl
      subst hl
      exact ⟨"Couldnt find server", rfl⟩
  · intro a j
    simp [rrFindServer, rrNext]

/-- Witness for C2 at the concrete pool `["a", "b", "c"]` and
cursor `0`. -/
theorem claim_C2_witness :
    (rrIdxList 3 0 3).Perm (List.range 3) ∧
    (∀ m < 3, (rrIdxList 3 0 3).count m = 1) ∧
    (rrOutputs ["a", "b", "c"] 0 3).Perm ["a", "b", "c"] ∧
    ((["a", "b", "c"] : List String).Nodup → ∀ s ∈ (["a", "b", "c"] : List String),
      (rrOutputs ["a", "b", "c"] 0 3).count s = 1) ∧
    (∀ k, ∃ h : rrOutIdx 3 0 k < 3,
      rrFindServer ["a", "b", "c"] (rrState 3 0 k) =
        .ok ((["a", "b", "c"] : List String).get ⟨rrOutIdx 3 0 k, h⟩, rrOutIdx 3 0 k)) ∧
    rrState 3 0 3 = 0 ∧
    (1 < 3 → ∀ k, rrOutIdx 3 0 k ≠ rrOutIdx 3 0 (k + 1)) ∧
    (∀ (l : List String) (j : Nat), (∃ e, rrFindServer l j = .error e) ↔ l = []) ∧
    (∀ (a : String) (j : Nat), rrFindServer [a] j = .ok (a, 0)) :=
  claim_C2 ["a", "b", "c"] 0 (by decide)

/-! ## Claim C3 : static lowest-player-count selection -/

theorem minByKey_eq_none_iff {l : List (String × Nat)} : minByKey l = none ↔ l = [] := by
  cases l with
  | nil => simp [minByKey]
  | cons x xs =>
    simp only [minByKey]
    cases minByKey xs with
    | none => simp
    | some y => by_cases h : x.2 ≤ y.2 <;> simp [h]

theorem minByKey_mem_min {l : List (String × Nat)} {x : String × Nat}
    (h : minByKey l = some x) : x ∈ l ∧ ∀ y ∈ l, x.2 ≤ y.2 := by
  induction l generalizing x with
  | nil => simp [minByKey] at h
  | cons a as ih =>
    simp only [minByKey] at h
    cases hm : minByKey as with
    | none =>
      have has : as = [] := minByKey_eq_none_iff.mp hm
      subst has
      rw [hm] at h
      simp only [Option.some.injEq] at h
      subst h
      simp
    | some y =>
      rw [hm] at h
      dsimp only at h
      obtain ⟨hymem, hymin⟩ := ih hm
      by_cases hle : a.2 ≤ y.2
      · rw [if_pos hle] at h
        simp only [Option.some.injEq] at h
        subst h
        refine ⟨by simp, ?_⟩
        intro z hz
        rcases List.mem_cons.mp hz with hz2 | hz2
        · subst hz2; omega
        · have := hymin z hz2; omega
      · rw [if_neg hle] at h
        simp only [Option.some.injEq] at h
        subst h
        refine ⟨List.mem_cons_of_mem _ hymem, ?_⟩
        intro z hz
        rcases List.mem_cons.mp hz with hz2 | hz2
        · subst hz2; omega
        · exact hymin z hz2

theorem minByKey_unique {l : List (String × Nat)} {x : String × Nat}
    (hmem : x ∈ l) (huniq : ∀ y ∈ l, y ≠ x → x.2 < y.2) : minByKey l = some x := by
  induction l with
  | nil => simp at hmem
  | cons a as ih =>
    simp only [minByKey]
    rcases List.mem_cons.mp hmem with hx | hx
    · subst hx
      cases hm : minByKey as with
      | none => rfl
      | some y =>
        dsimp only
        have hymem := (minByKey_mem_min hm).1
        by_cases hy : y = x
        · subst hy; simp
        · have := huniq y (List.mem_cons_of_mem _ hymem) hy
          rw [if_pos (by omega)]
    · have has : minByKey as = some x := by
        apply ih hx
        intro y hy
        exact huniq y (List.mem_cons_of_mem _ hy)
      rw [has]
      dsimp only
      by_cases ha : a = x
      · subst ha
        by_cases hle : a.2 ≤ a.2 <;> simp [hle]
      · have := huniq a (by simp) ha
        rw [if_neg (by omega)]

/-- Counterexample to C3's tie-break clause: with the pool
`["A", "B"]`, both probes reporting 5 players, the probe fan-out may
complete in the order `B, A` (`buffer_unordered(5)` collects results in
completion order, and the shown list is a permutation of the pool's
probe results), and then `min_by_key` returns `B` — not the first pool
member `A` that the claimed pool-order tie-break requires. -/
theorem claim_C3_counterexample :
    [("B", 5), ("A", 5)].Perm (probeResults ["A", "B"] (fun _ => some 5)) ∧
    lowestFindServer [("B", 5), ("A", 5)] = .ok "B" ∧
    ("B" : String) ≠ "A" ∧ (["A", "B"] : List String).head? = some "A" := by
  refine ⟨?_, rfl, by decide, rfl⟩
  have h : probeResults ["A", "B"] (fun _ => some 5) = [("A", 5), ("B", 5)] := rfl
  rw [h]
  exact List.Perm.swap ("A", 5) ("B", 5) []

/-- Amended C3: for every non-empty static pool under lowest-load and
every completion order of the probe fan-out, `find_server` scores a
failed or timed-out probe as `u32::MAX` (the worst possible value),
returns a backend whose score is minimal over the pool — ties are
broken by probe-completion order, not pool order — and fails exactly on
the empty pool; in particular, among probe results
`{A: 5, B: 0, C: timeout}` every completion order yields `B`, and with
all probes failing some backend is still returned. -/
theorem claim_C3 (servers : List String) (probe : String → Option Nat)
    (results : List (String × Nat))
    (hperm : results.Perm (probeResults servers probe))
    (hne : servers ≠ []) :
    (∃ s, lowestFindServer results = .ok s ∧ s ∈ servers ∧
      ∀ t ∈ servers, probeScore (probe s) ≤ probeScore (probe t)) ∧
    (probeScore none = U32MAX ∧ ∀ r : Option Nat, probeScore r ≤ U32MAX) ∧
    (∀ results2 : List (String × Nat),
      results2.Perm (probeResults ["A", "B", "C"]
        (fun s => if s = "A" then some 5 else if s = "B" then some 0 else none)) →
      lowestFindServer results2 = .ok "B") ∧
    (∀ results3 : List (String × Nat), ∀ f : String → Option Nat,
      results3.Perm (probeResults [] f) →
      lowestFindServer results3 = .error "No servers available") := by
  refine ⟨?_, ⟨rfl, ?_⟩, ?_, ?_⟩
  · -- a backend with minimal score is returned
    have hrne : results ≠ [] := by
      intro h
      subst h
      have := hperm.symm.eq_nil
      simp only [probeResults] at this
      exact hne (List.map_eq_nil_iff.mp this)
    cases hmk : minByKey results with
    | none => exact absurd (minByKey_eq_none_iff.mp hmk) hrne
    | some x =>
      obtain ⟨hxmem, hxmin⟩ := minByKey_mem_min hmk
      have hxres : x ∈ probeResults servers probe := hperm.subset hxmem
      simp only [probeResults, List.mem_map] at hxres
      obtain ⟨s, hs, hsx⟩ := hxres
      refine ⟨s, ?_, hs, ?_⟩
      · simp [lowestFindServer, hmk, ← hsx]
      · intro t ht
        have htres : (t, probeScore (probe t)) ∈ results := by
          apply hperm.symm.subset
          simp only [probeResults, List.mem_map]
          exact ⟨t, ht, rfl⟩
        have := hxmin _ htres
        rw [← hsx] at this
        exact this
  · intro r
    cases r with
    | none => simp [probeScore]
    | some c =>
      simp only [probeScore, U32MAX]
      have : c % 4294967296 < 4294967296 := Nat.mod_lt _ (by omega)
      omega
  · intro results2 hp2
    have hform : probeResults ["A", "B", "C"]
        (fun s => if s = "A" then some 5 else if s = "B" then some 0 else none) =
        [("A", 5), ("B", 0), ("C", U32MAX)] := rfl
    rw [hform] at hp2
    have hbm : ("B", 0) ∈ results2 := hp2.symm.subset (by simp)
    have hres : minByKey results2 = some ("B", 0) := by
      apply minByKey_unique hbm
      intro y hy hyne
      have : y ∈ [("A", 5), ("B", 0), ("C", U32MAX)] := hp2.subset hy
      simp only [List.mem_cons, List.not_mem_nil, or_false] at this
      rcases this with h | h | h
      · subst h; simp
      · exact absurd h hyne
      · subst h; simp [U32MAX]
    simp [lowestFindServer, hres]
  · intro results3 f hp3
    have : results3 = [] := by
      have := hp3.eq_nil
      simp only [probeResults, List.map_nil] at this
      exact this
    subst this
    rfl

/-- Witness for C3 (amended) at the pool `["A", "B", "C"]` with probe
results `{A: 5, B: 0, C: timeout}` collected in completion order
`C, B, A`. -/
theorem claim_C3_witness :
    (∃ s, lowestFindServer [("C", U32MAX), ("B", 0), ("A", 5)] = .ok s ∧
      s ∈ (["A", "B", "C"] : List String) ∧
      ∀ t ∈ (["A", "B", "C"] : List String),
        probeScore ((fun s => if s = "A" then some 5 else if s = "B" then some 0 else none) s) ≤
        probeScore ((fun s => if s = "A" then some 5 else if s = "B" then some 0 else none) t)) ∧
    (probeScore none = U32MAX ∧ ∀ r : Option Nat, probeScore r ≤ U32MAX) ∧
    (∀ results2 : List (String × Nat),
      results2.Perm (probeResults ["A", "B", "C"]
        (fun s => if s = "A" then some 5 else if s = "B" then some 0 else none)) →
      lowestFindServer results2 = .ok "B") ∧
    (∀ results3 : List (String × Nat), ∀ f : String → Option Nat,
      results3.Perm (probeResults [] f) →
      lowestFindServer results3 = .error "No servers available") := by
  refine claim_C3 ["A", "B", "C"]
    (fun s => if s = "A" then some 5 else if s = "B" then some 0 else none)
    [("C", U32MAX), ("B", 0), ("A", 5)] ?_ (by decide)
  have hform : probeResults ["A", "B", "C"]
      (fun s => if s = "A" then some 5 else if s = "B" then some 0 else none) =
      [("A", 5), ("B", 0), ("C", U32MAX)] := rfl
  rw [hform]
  decide

/-! ## Claim C5 : status cache refresh and memoization -/

theorem cacheGet_insert_self (m : List ((String × Nat × Nat) × StatusResponse))
    (k : String × Nat × Nat) (r : StatusResponse) :
    cacheGet ((k, r) :: m) k = some r := by
  simp [cacheGet]

theorem get_status_after (c : StatusCache) (motd : String) (protocol pc t : Nat) :
    cacheGet (get_status_response c motd protocol pc t).2.1.cache
      (motd, protocol, (get_status_response c motd protocol pc t).2.1.count) =
      some (get_status_response c motd protocol pc t).1 := by
  by_cases href : 15 < t - c.lastUpdated <;>
    simp only [get_status_response, href, if_true, if_false, if_pos, if_neg,
      not_false_iff]
  · cases hg : cacheGet ({ c with count := pc, lastUpdated := t } : StatusCache).cache
        (motd, protocol, pc) with
    | some cached => simp [hg]
    | none => simp [hg, cacheGet_insert_self]
  · cases hg : cacheGet c.cache (motd, protocol, c.count) with
    | some cached => simp [hg]
    | none => simp [hg, cacheGet_insert_self]

/-- Claim C5: two sequential `get_status_response` calls with the same
motd and protocol and an unchanged backend pool (the same aggregate
`playerCount`), the second made within 15 seconds of the last refresh,
return identical payloads (hence byte-identical serialized bytes) and
the second call never queries the selector, so `get_player_count` runs
at most once across the pair; and any call made more than 15 seconds
after the last refresh queries the selector exactly once and records
the new count and the new refresh time. -/
theorem claim_C5 (c : StatusCache) (motd : String) (protocol pc t1 t2 : Nat) :
    (t2 - (get_status_response c motd protocol pc t1).2.1.lastUpdated ≤ 15 →
      (get_status_response ((get_status_response c motd protocol pc t1).2.1)
          motd protocol pc t2).1 =
        (get_status_response c motd protocol pc t1).1 ∧
      (get_status_response ((get_status_response c motd protocol pc t1).2.1)
          motd protocol pc t2).2.2 = false) ∧
    (15 < t1 - c.lastUpdated →
      (get_status_response c motd protocol pc t1).2.2 = true ∧
      (get_status_response c motd protocol pc t1).2.1.count = pc ∧
      (get_status_response c motd protocol pc t1).2.1.lastUpdated = t1) ∧
    (t1 - c.lastUpdated ≤ 15 →
      (get_status_response c motd protocol pc t1).2.2 = false) := by
  refine ⟨?_, ?_, ?_⟩
  · intro hwithin
    have hafter := get_status_after c motd protocol pc t1
    have hnr : ¬ 15 < t2 - (get_status_response c motd protocol pc t1).2.1.lastUpdated := by
      omega
    constructor
    · conv_lhs => rw [get_status_response]
      simp only [hnr, if_false, if_neg, not_false_iff]
      rw [hafter]
    · conv_lhs => rw [get_status_response]
      simp only [hnr, if_false, if_neg, not_false_iff]
      rw [hafter]
  · intro hstale
    refine ⟨?_, ?_, ?_⟩ <;>
      · rw [get_status_response]
        simp only [hstale, if_true, if_pos]
        cases hg : cacheGet ({ c with count := pc, lastUpdated := t1 } : StatusCache).cache
            (motd, protocol, pc) with
        | some cached => simp [hg]
        | none => simp [hg]
  · intro hfresh
    have hnr : ¬ 15 < t1 - c.lastUpdated := by omega
    rw [get_status_response]
    simp only [hnr, if_false, if_neg, not_false_iff]
    cases hg : cacheGet c.cache (motd, protocol, c.count) with
    | some cached => simp [hg]
    | none => simp [hg]

/-- Witness for C5 at a concrete cache state: an empty cache last
refreshed at time 0, calls at times 20 and 25 with aggregate 7. -/
theorem claim_C5_witness :
    ((25 : Nat) - (get_status_response ⟨0, 0, []⟩ "m" 770 7 20).2.1.lastUpdated ≤ 15 →
      (get_status_response ((get_status_response ⟨0, 0, []⟩ "m" 770 7 20).2.1)
          "m" 770 7 25).1 = (get_status_response ⟨0, 0, []⟩ "m" 770 7 20).1 ∧
      (get_status_response ((get_status_response ⟨0, 0, []⟩ "m" 770 7 20).2.1)
          "m" 770 7 25).2.2 = false) ∧
    (15 < (20 : Nat) - (0 : Nat) →
      (get_status_response ⟨0, 0, []⟩ "m" 770 7 20).2.2 = true ∧
      (get_status_response ⟨0, 0, []⟩ "m" 770 7 20).2.1.count = 7 ∧
      (get_status_response ⟨0, 0, []⟩ "m" 770 7 20).2.1.lastUpdated = 20) ∧
    ((20 : Nat) - (0 : Nat) ≤ 15 →
      (get_status_response ⟨0, 0, []⟩ "m" 770 7 20).2.2 = false) :=
  claim_C5 ⟨0, 0, []⟩ "m" 770 7 20 25

/-! ## Claims C10, C4, C9 : connection state machine -/

theorem cacheGet_wf {c : StatusCache} (hwf : cacheWF c) {k : String × Nat × Nat}
    {r : StatusResponse} (h : cacheGet c.cache k = some r) :
    r = build_status_response k.1 k.2.1 k.2.2 := by
  simp only [cacheGet, Option.map_eq_some'] at h
  obtain ⟨e, hfind, her⟩ := h
  have hmem := List.mem_of_find?_eq_some hfind
  have hkey := List.find?_some hfind
  simp only [decide_eq_true_eq] at hkey
  rw [← her, hwf e hmem, hkey]

theorem cacheWF_get_protocol {c : StatusCache} (hwf : cacheWF c) (motd : String)
    (protocol pc t : Nat) :
    (get_status_response c motd protocol pc t).1.protocol = protocol := by
  by_cases href : 15 < t - c.lastUpdated <;>
    simp only [get_status_response, href, if_true, if_false, if_pos, if_neg,
      not_false_iff]
  · cases hg : cacheGet ({ c with count := pc, lastUpdated := t } : StatusCache).cache
        (motd, protocol, pc) with
    | some cached =>
      have hwfr : cacheWF ({ c with count := pc, lastUpdated := t } : StatusCache) := hwf
      have := cacheGet_wf hwfr hg
      simp [hg, this, build_status_response]
    | none => simp [hg, build_status_response]
  · cases hg : cacheGet c.cache (motd, protocol, c.count) with
    | some cached =>
      have := cacheGet_wf hwf hg
      simp [hg, this, build_status_response]
    | none => simp [hg, build_status_response]

theorem cacheWF_preserved (c : StatusCache) (hwf : cacheWF c) (motd : String)
    (protocol pc t : Nat) :
    cacheWF (get_status_response c motd protocol pc t).2.1 := by
  by_cases href : 15 < t - c.lastUpdated <;>
    simp only [get_status_response, href, if_true, if_false, if_pos, if_neg,
      not_false_iff]
  · cases hg : cacheGet ({ c with count := pc, lastUpdated := t } : StatusCache).cache
        (motd, protocol, pc) with
    | some cached => simpa [hg] using hwf
    | none =>
      simp only [hg]
      intro e he
      rcases List.mem_cons.mp he with he2 | he2
      · subst he2; rfl
      · exact hwf e he2
  · cases hg : cacheGet c.cache (motd, protocol, c.count) with
    | some cached => simpa [hg] using hwf
    | none =>
      simp only [hg]
      intro e he
      rcases List.mem_cons.mp he with he2 | he2
      · subst he2; rfl
      · exact hwf e he2

theorem maxProtocolToNat (v : Int) : (max 766 v).toNat = max 766 v.toNat := by
  rcases le_total (766 : Int) v with h | h
  · rw [max_eq_right h]
    have h1 : (766 : Int).toNat ≤ v.toNat := Int.toNat_le_toNat h
    have h2 : (766 : Int).toNat = 766 := rfl
    rw [max_eq_right (by omega)]
  · rw [max_eq_left h]
    have h1 : v.toNat ≤ (766 : Int).toNat := Int.toNat_le_toNat h
    have h2 : (766 : Int).toNat = 766 := rfl
    rw [max_eq_left (by omega)]
    exact h2

/-- Claim C10: after a handshake declaring protocol version `v` and
next-state Status, a status request makes the connection emit one status
response whose embedded protocol field is `max(766, v)` — never below
766, even when the declared version is smaller than 766 (or the
recorded version is still the initial `0`). -/
theorem claim_C10 (env : MachineEnv) (cache : StatusCache) (hwf : cacheWF cache)
    (v : Int) (c : Conn) (hc : c.state = .handShake) (t1 t2 : Nat)
    (q : RawPacket) (hq : q.id = statusRequestPacketId) :
    ∃ resp : StatusResponse,
      runConn env c cache
        [(t1, ⟨handshakePacketId, .handshake v .status⟩), (t2, q)] =
        ([.statusResponse resp], []) ∧
      handle_packet env c cache t1 ⟨handshakePacketId, .handshake v .status⟩ =
        ⟨⟨.status, v⟩, cache, [], true⟩ ∧
      resp.protocol = (max 766 v).toNat ∧
      resp.protocol = max 766 v.toNat ∧
      766 ≤ resp.protocol := by
  rcases c with ⟨st, pv⟩
  simp only at hc
  subst hc
  refine ⟨(get_status_response cache "test" ((max 766 v).toNat) env.playerCount t2).1,
    ?_, ?_, ?_, ?_, ?_⟩
  · simp [runConn, handle_packet, handle_handshake_packet, handle_status_packet,
      readHandshake, hq, handshakePacketId, statusRequestPacketId]
  · simp [handle_packet, handle_handshake_packet, readHandshake, handshakePacketId]
  · exact cacheWF_get_protocol hwf "test" _ env.playerCount t2
  · rw [cacheWF_get_protocol hwf "test" _ env.playerCount t2]
    exact maxProtocolToNat v
  · rw [cacheWF_get_protocol hwf "test" _ env.playerCount t2]
    have h1 : (766 : Int) ≤ max 766 v := le_max_left _ _
    have h2 : (766 : Int).toNat ≤ (max 766 v).toNat := Int.toNat_le_toNat h1
    exact h2

/-- Witness for C10 with an empty (well-formed) cache and a client that
declared protocol version 5: the advertised protocol is 766. -/
theorem claim_C10_witness :
    ∃ resp : StatusResponse,
      runConn ⟨9, .error "e", fun _ => .error "e"⟩ ⟨.handShake, 0⟩ ⟨0, 0, []⟩
        [(20, ⟨handshakePacketId, .handshake 5 .status⟩), (21, ⟨0, .empty⟩)] =
        ([.statusResponse resp], []) ∧
      handle_packet ⟨9, .error "e", fun _ => .error "e"⟩ ⟨.handShake, 0⟩ ⟨0, 0, []⟩
        20 ⟨handshakePacketId, .handshake 5 .status⟩ =
        ⟨⟨.status, 5⟩, ⟨0, 0, []⟩, [], true⟩ ∧
      resp.protocol = (max 766 (5 : Int)).toNat ∧
      resp.protocol = max 766 ((5 : Int)).toNat ∧
      766 ≤ resp.protocol :=
  claim_C10 ⟨9, .error "e", fun _ => .error "e"⟩ ⟨0, 0, []⟩
    (by intro e he; exact absurd he (List.not_mem_nil e)) 5 ⟨.handShake, 0⟩ rfl
    20 21 ⟨0, .empty⟩ rfl

/-- Claim C4: once login-acknowledged has moved a connection into the
Config state, handling its next packet asks the shared selector for a
backend, resolves that backend's host and port, emits exactly one
transfer (redirect) packet naming them, and the processing loop
terminates without reading any further packet (the remaining input is
returned unconsumed). -/
theorem claim_C4 (env : MachineEnv) (c : Conn) (cache : StatusCache)
    (srv host : String) (port : Nat)
    (hsel : env.selection = .ok srv)
    (hres : env.resolveServer srv = .ok (host, port))
    (hc : c.state = .login)
    (t1 t2 : Nat) (ack p2 : RawPacket)
    (hack : ack.id = loginAcknowledgedPacketId)
    (rest : List (Nat × RawPacket)) :
    runConn env c cache ((t1, ack) :: (t2, p2) :: rest) =
      ([.transfer host port], rest) := by
  rcases c with ⟨st, pv⟩
  simp only at hc
  subst hc
  simp [runConn, handle_packet, handle_login_packet, handle_config_packet,
    hack, hsel, hres, loginAcknowledgedPacketId, loginStartPacketId]

/-- Witness for C4 at a concrete selector outcome and resolution. -/
theorem claim_C4_witness :
    runConn ⟨0, .ok "s1", fun s => if s = "s1" then .ok ("203.0.113.9", 25566) else .error "no"⟩
      ⟨.login, 770⟩ ⟨0, 0, []⟩
      ((5, ⟨loginAcknowledgedPacketId, .empty⟩) :: (6, ⟨2, .malformed⟩) ::
        [(7, ⟨0, .empty⟩)]) =
      ([.transfer "203.0.113.9" 25566], [(7, ⟨0, .empty⟩)]) :=
  claim_C4 ⟨0, .ok "s1", fun s => if s = "s1" then .ok ("203.0.113.9", 25566) else .error "no"⟩
    ⟨.login, 770⟩ ⟨0, 0, []⟩ "s1" "203.0.113.9" 25566 rfl (by simp) rfl
    5 6 ⟨loginAcknowledgedPacketId, .empty⟩ ⟨2, .malformed⟩ rfl [(7, ⟨0, .empty⟩)]

/-- Claim C9: an unrecognized packet id in the Handshake state is
ignored — the handler succeeds, the state is unchanged, and the loop
continues with the remaining input — while an unrecognized packet id in
the Status or Login state is a fatal error that terminates the
connection's processing loop with nothing sent and the remaining input
unread. -/
theorem claim_C9 (env : MachineEnv) (c : Conn) (cache : StatusCache)
    (now : Nat) (p : RawPacket) (rest : List (Nat × RawPacket)) :
    (c.state = .handShake → p.id ≠ handshakePacketId →
      handle_packet env c cache now p = ⟨c, cache, [], true⟩ ∧
      runConn env c cache ((now, p) :: rest) = runConn env c cache rest) ∧
    (c.state = .status → p.id ≠ statusRequestPacketId →
      p.id ≠ statusPingRequestPacketId →
      handle_packet env c cache now p = ⟨c, cache, [], false⟩ ∧
      runConn env c cache ((now, p) :: rest) = ([], rest)) ∧
    (c.state = .login → p.id ≠ loginStartPacketId →
      p.id ≠ loginAcknowledgedPacketId →
      handle_packet env c cache now p = ⟨c, cache, [], false⟩ ∧
      runConn env c cache ((now, p) :: rest) = ([], rest)) := by
  rcases c with ⟨st, pv⟩
  refine ⟨?_, ?_, ?_⟩
  · intro hc hne
    simp only at hc
    subst hc
    have hhp : handle_packet env ⟨.handShake, pv⟩ cache now p =
        ⟨⟨.handShake, pv⟩, cache, [], true⟩ := by
      simp [handle_packet, handle_handshake_packet, hne]
    refine ⟨hhp, ?_⟩
    simp [runConn, hhp]
  · intro hc hne1 hne2
    simp only at hc
    subst hc
    have hhp : handle_packet env ⟨.status, pv⟩ cache now p =
        ⟨⟨.status, pv⟩, cache, [], false⟩ := by
      simp [handle_packet, handle_status_packet, hne1, hne2]
    refine ⟨hhp, ?_⟩
    simp [runConn, hhp]
  · intro hc hne1 hne2
    simp only at hc
    subst hc
    have hhp : handle_packet env ⟨.login, pv⟩ cache now p =
        ⟨⟨.login, pv⟩, cache, [], false⟩ := by
      simp [handle_packet, handle_login_packet, hne1, hne2]
    refine ⟨hhp, ?_⟩
    simp [runConn, hhp]

/-- Witness for C9 at a concrete unknown packet id (99). -/
theorem claim_C9_witness :
    (CState.handShake = CState.handShake → (99 : Int) ≠ handshakePacketId →
      handle_packet ⟨0, .error "e", fun _ => .error "e"⟩ ⟨.handShake, 0⟩ ⟨0, 0, []⟩
        1 ⟨99, .empty⟩ = ⟨⟨.handShake, 0⟩, ⟨0, 0, []⟩, [], true⟩ ∧
      runConn ⟨0, .error "e", fun _ => .error "e"⟩ ⟨.handShake, 0⟩ ⟨0, 0, []⟩
        ((1, ⟨99, .empty⟩) :: [(2, ⟨0, .empty⟩)]) =
        runConn ⟨0, .error "e", fun _ => .error "e"⟩ ⟨.handShake, 0⟩ ⟨0, 0, []⟩
          [(2, ⟨0, .empty⟩)]) ∧
    (CState.handShake = CState.status → (99 : Int) ≠ statusRequestPacketId →
      (99 : Int) ≠ statusPingRequestPacketId →
      handle_packet ⟨0, .error "e", fun _ => .error "e"⟩ ⟨.handShake, 0⟩ ⟨0, 0, []⟩
        1 ⟨99, .empty⟩ = ⟨⟨.handShake, 0⟩, ⟨0, 0, []⟩, [], false⟩ ∧
      runConn ⟨0, .error "e", fun _ => .error "e"⟩ ⟨.handShake, 0⟩ ⟨0, 0, []⟩
        ((1, ⟨99, .empty⟩) :: [(2, ⟨0, .empty⟩)]) = ([], [(2, ⟨0, .empty⟩)])) ∧
    (CState.handShake = CState.login → (99 : Int) ≠ loginStartPacketId →
      (99 : Int) ≠ loginAcknowledgedPacketId →
      handle_packet ⟨0, .error "e", fun _ => .error "e"⟩ ⟨.handShake, 0⟩ ⟨0, 0, []⟩
        1 ⟨99, .empty⟩ = ⟨⟨.handShake, 0⟩, ⟨0, 0, []⟩, [], false⟩ ∧
      runConn ⟨0, .error "e", fun _ => .error "e"⟩ ⟨.handShake, 0⟩ ⟨0, 0, []⟩
        ((1, ⟨99, .empty⟩) :: [(2, ⟨0, .empty⟩)]) = ([], [(2, ⟨0, .empty⟩)])) :=
  claim_C9 ⟨0, .error "e", fun _ => .error "e"⟩ ⟨.handShake, 0⟩ ⟨0, 0, []⟩
    1 ⟨99, .empty⟩ [(2, ⟨0, .empty⟩)]

/-! ## Claims C7, C8 : endpoint resolver literal-IP and bracket handling -/

theorem resolve_of_split_some (env : ResolveEnv) (input service proto : List Char)
    (fallback_port : Nat) (host : List Char) (port : Nat) (ip : List Char)
    (hsplit : split_host_port env.parseIp input = .ok (some (host, port)))
    (hip : env.parseIp host = some ip) :
    resolve_host_port env input service proto fallback_port =
      (.ok ⟨ip, port, input, host⟩, false) := by
  simp [resolve_host_port, hsplit, hip]

theorem resolve_of_split_error (env : ResolveEnv) (input service proto : List Char)
    (fallback_port : Nat) (e : EndpointError)
    (hsplit : split_host_port env.parseIp input = .error e) :
    resolve_host_port env input service proto fallback_port = (.error e, false) := by
  simp [resolve_host_port, hsplit]

theorem resolve_hostpath_not_invalid (env : ResolveEnv) (input service proto : List Char)
    (fallback_port : Nat)
    (hsplit : split_host_port env.parseIp input = .ok none)
    (halpha : (normalize_host_without_port input).any Char.isAlpha = true) :
    (resolve_host_port env input service proto fallback_port).1 ≠
      .error .invalidHostPort := by
  simp only [resolve_host_port, hsplit]
  cases hp : env.parseIp (normalize_host_without_port input) with
  | some ip => simp
  | none =>
    simp only [hp, halpha, if_true]
    cases hsrv : env.srvLookup (srvName service proto (normalize_host_without_port input)) with
    | ok answers =>
      cases hpick : pick_srv answers env.shuffle env.draw with
      | some chosen => simp [hsrv, hpick]
      | none =>
        cases hlook : env.lookupIp (normalize_host_without_port input) with
        | error e => simp [hsrv, hpick, hlook]
        | ok addrs =>
          cases hh : addrs.head? with
          | some ip2 => simp [hsrv, hpick, hlook, hh]
          | none => simp [hsrv, hpick, hlook, hh]
    | error e =>
      cases hlook : env.lookupIp (normalize_host_without_port input) with
      | error e2 => simp [hsrv, hlook]
      | ok addrs =>
        cases hh : addrs.head? with
        | some ip2 => simp [hsrv, hlook, hh]
        | none => simp [hsrv, hlook, hh]

/-- Claim C7: whenever the host portion of the input is a literal IP
address (the std parser accepts it), `resolve_host_port` returns that
address without performing any DNS lookup — with the explicit port when
one was split off, and with the supplied fallback port when no port was
given (after trimming and stripping a trailing root-domain dot); an
unbracketed multi-colon IPv6 literal is recognised as having no explicit
port and therefore also resolves to the fallback port. -/
theorem claim_C7 (env : ResolveEnv) (input service proto : List Char)
    (fallback_port : Nat) :
    (∀ host port ip, split_host_port env.parseIp input = .ok (some (host, port)) →
      env.parseIp host = some ip →
      resolve_host_port env input service proto fallback_port =
        (.ok ⟨ip, port, input, host⟩, false)) ∧
    (∀ ip, split_host_port env.parseIp input = .ok none →
      env.parseIp (normalize_host_without_port input) = some ip →
      resolve_host_port env input service proto fallback_port =
        (.ok ⟨ip, fallback_port, input, normalize_host_without_port input⟩, false)) ∧
    (input.head? ≠ some '[' → 1 < colonCount input → (env.parseIp input).isSome →
      split_host_port env.parseIp input = .ok none) := by
  refine ⟨?_, ?_, ?_⟩
  · intro host port ip hsplit hip
    simp [resolve_host_port, hsplit, hip]
  · intro ip hsplit hip
    simp [resolve_host_port, hsplit, hip]
  · intro hbr hcc hip
    simp only [split_host_port]
    rw [if_neg hbr, if_neg (by omega), if_pos ⟨hcc, hip⟩]

/-- Witness for C7: `"1.2.3.4:77"` resolves to that address and port 77
without DNS, `"::1"` (unbracketed multi-colon IPv6, no port) resolves to
the fallback port without DNS, and its port split is recognised as
`None`; the environment's lookups all fail, showing they are unused. -/
theorem claim_C7_witness :
    resolve_host_port
        ⟨fun s => if s = "1.2.3.4".toList ∨ s = "::1".toList then some s else none,
          fun _ => .error (), fun _ => .error (), id, 0⟩
        ("1.2.3.4:77".toList) ("minecraft".toList) ("tcp".toList) 25565 =
      (.ok ⟨"1.2.3.4".toList, 77, "1.2.3.4:77".toList, "1.2.3.4".toList⟩, false) ∧
    resolve_host_port
        ⟨fun s => if s = "1.2.3.4".toList ∨ s = "::1".toList then some s else none,
          fun _ => .error (), fun _ => .error (), id, 0⟩
        ("::1".toList) ("minecraft".toList) ("tcp".toList) 25565 =
      (.ok ⟨"::1".toList, 25565, "::1".toList, "::1".toList⟩, false) ∧
    split_host_port (fun s => if s = "1.2.3.4".toList ∨ s = "::1".toList then some s else none)
        ("::1".toList) = .ok none := by
  refine ⟨?_, ?_, ?_⟩
  · exact (claim_C7
      ⟨fun s => if s = "1.2.3.4".toList ∨ s = "::1".toList then some s else none,
        fun _ => .error (), fun _ => .error (), id, 0⟩
      ("1.2.3.4:77".toList) ("minecraft".toList) ("tcp".toList) 25565).1
      ("1.2.3.4".toList) 77 ("1.2.3.4".toList) rfl rfl
  · exact (claim_C7
      ⟨fun s => if s = "1.2.3.4".toList ∨ s = "::1".toList then some s else none,
        fun _ => .error (), fun _ => .error (), id, 0⟩
      ("::1".toList) ("minecraft".toList) ("tcp".toList) 25565).2.1
      ("::1".toList) rfl rfl
  · exact (claim_C7
      ⟨fun s => if s = "1.2.3.4".toList ∨ s = "::1".toList then some s else none,
        fun _ => .error (), fun _ => .error (), id, 0⟩
      ("::1".toList) ("minecraft".toList) ("tcp".toList) 25565).2.2
      (by decide) (by decide) (by decide)

/-- Counterexample to C8's second half: `resolve("bad[bracket", ...)`
does not fail with `InvalidHostPort`.  The input does not start with
`[`, contains no colon, and is therefore treated as a port-less
hostname: with both DNS lookups failing, the result is the `Resolve`
transport error, a different `EndpointError` variant than the claimed
`InvalidHostPort`. -/
theorem claim_C8_counterexample :
    (resolve_host_port ⟨fun _ => none, fun _ => .error (), fun _ => .error (), id, 0⟩
      ("bad[bracket".toList) ("minecraft".toList) ("tcp".toList) 25565).1 =
      .error .resolveErr ∧
    EndpointError.resolveErr ≠ EndpointError.invalidHostPort :=
  ⟨rfl, by decide⟩

/-- Amended C8: `resolve("[2001:db8::1]:1234", ...)` returns that
literal IPv6 address with port 1234 and no DNS lookup; a malformed
*leading*-bracket input such as `"[bad"` fails with `InvalidHostPort`;
but `"bad[bracket"` is not bracket syntax at all — it is processed as a
port-less hostname, and its resolution never produces
`InvalidHostPort` (it succeeds or fails with a lookup error),
whatever the DNS collaborators return. -/
theorem claim_C8 (env : ResolveEnv) (service proto : List Char) (fallback_port : Nat) :
    (∀ ip, env.parseIp ("2001:db8::1".toList) = some ip →
      resolve_host_port env ("[2001:db8::1]:1234".toList) service proto fallback_port =
        (.ok ⟨ip, 1234, "[2001:db8::1]:1234".toList, "2001:db8::1".toList⟩, false)) ∧
    ((resolve_host_port env ("bad[bracket".toList) service proto fallback_port).1 ≠
      .error .invalidHostPort) ∧
    (split_host_port env.parseIp ("[bad".toList) = .error .invalidHostPort ∧
      resolve_host_port env ("[bad".toList) service proto fallback_port =
        (.error .invalidHostPort, false)) := by
  refine ⟨?_, ?_, ?_, ?_⟩
  · intro ip hip
    exact resolve_of_split_some env ("[2001:db8::1]:1234".toList) service proto
      fallback_port ("2001:db8::1".toList) 1234 ip rfl hip
  · exact resolve_hostpath_not_invalid env ("bad[bracket".toList) service proto
      fallback_port rfl rfl
  · rfl
  · exact resolve_of_split_error env ("[bad".toList) service proto fallback_port
      .invalidHostPort rfl

/-- Witness for C8 (amended) with a parser accepting the IPv6 literal
and failing DNS lookups. -/
theorem claim_C8_witness :
    resolve_host_port ⟨fun s => if s = "2001:db8::1".toList then some s else none,
        fun _ => .error (), fun _ => .error (), id, 0⟩
      ("[2001:db8::1]:1234".toList) ("minecraft".toList) ("tcp".toList) 25565 =
      (.ok ⟨"2001:db8::1".toList, 1234, "[2001:db8::1]:1234".toList,
        "2001:db8::1".toList⟩, false) ∧
    ((resolve_host_port ⟨fun s => if s = "2001:db8::1".toList then some s else none,
        fun _ => .error (), fun _ => .error (), id, 0⟩
      ("bad[bracket".toList) ("minecraft".toList) ("tcp".toList) 25565).1 ≠
      .error .invalidHostPort) ∧
    (split_host_port (fun s => if s = "2001:db8::1".toList then some s else none)
        ("[bad".toList) = .error .invalidHostPort ∧
      resolve_host_port ⟨fun s => if s = "2001:db8::1".toList then some s else none,
          fun _ => .error (), fun _ => .error (), id, 0⟩
        ("[bad".toList) ("minecraft".toList) ("tcp".toList) 25565 =
        (.error .invalidHostPort, false)) := by
  have h := claim_C8 ⟨fun s => if s = "2001:db8::1".toList then some s else none,
    fun _ => .error (), fun _ => .error (), id, 0⟩
    ("minecraft".toList) ("tcp".toList) 25565
  exact ⟨h.1 ("2001:db8::1".toList) (by decide), h.2.1, h.2.2⟩

/-- Witness for C1 (amended) at a concrete region map and lookup
outcome: a North-America record routed by continent code. -/
theorem claim_C1_witness :
    geo_find_server (fun k => if k = "NA" then some "us.example.com" else none) "fb"
      (.ok ⟨"1.2.3.4", "AS1", "n", "d", "US", "United States", "NA", "North America"⟩) =
      .ok ((((fun k => if k = "NA" then some "us.example.com" else none) "NA").or
        ((fun k => if k = "NA" then some "us.example.com" else none) "US")).getD "fb") :=
  (claim_C1 (fun k => if k = "NA" then some "us.example.com" else none) "fb"
    (.error ()) (.error ()) (fun _ => .ok ())).1
    ⟨"1.2.3.4", "AS1", "n", "d", "US", "United States", "NA", "North America"⟩

end LoadBalancer
